import Mathlib

/-!
Shallow embedding of the repository source file ETL.py.

Python strings are modelled as lists of characters (type PyStr below) and
the Python string operations the source uses (split with a separator,
split with a maxsplit of one, whitespace split, strip, upper) are modelled
by the executable functions in the first section.  Fallible Python code
(IndexError from indexing a too-short split result, ValueError from a
missing JSON key, database exceptions) is modelled with Except and with
explicit outcome types.  The pandas DataFrame of the source is modelled as
a list of records: the transform applies each column operation to every
record in order, exactly as the column-wise apply calls of the source do,
and the first per-record exception aborts the whole transform.
-/

abbrev PyStr := List Char

/-- Python lstrip: drop leading whitespace. -/
def pyLStrip (s : PyStr) : PyStr := s.dropWhile Char.isWhitespace

/-- Python removal of trailing whitespace, written structurally: a
character is kept when the stripped remainder is nonempty, and otherwise
survives only when it is itself not whitespace. -/
def pyRStrip : PyStr → PyStr
  | [] => []
  | c :: cs =>
      match pyRStrip cs with
      | [] => if c.isWhitespace then [] else [c]
      | a :: as => c :: a :: as

/-- Python strip: remove leading and trailing whitespace. -/
def pyStrip (s : PyStr) : PyStr := pyRStrip (pyLStrip s)

/-- The first whitespace-delimited token of a string (empty when the
string holds no non-whitespace character). -/
def firstWsToken (s : PyStr) : PyStr :=
  (s.dropWhile Char.isWhitespace).takeWhile (fun c => !c.isWhitespace)

/-- Scanner for the no-argument Python split (split on whitespace runs,
dropping empty pieces); cur holds the reversed characters of the token
being read. -/
def wordsAux : PyStr → PyStr → List PyStr
  | [], cur => if cur = [] then [] else [cur.reverse]
  | c :: cs, cur =>
      if c.isWhitespace then
        if cur = [] then wordsAux cs [] else cur.reverse :: wordsAux cs []
      else wordsAux cs (c :: cur)

/-- Python split() with no separator. -/
def pySplitWs (s : PyStr) : List PyStr := wordsAux s []

/-- Prepend a character to the first piece of a split result. -/
def consHead (c : Char) : List PyStr → List PyStr
  | [] => [[c]]
  | x :: xs => (c :: x) :: xs

/-- Python split(sep) for a single-character separator. -/
def splitChar (sep : Char) : PyStr → List PyStr
  | [] => [[]]
  | c :: cs =>
      if c = sep then [] :: splitChar sep cs else consHead c (splitChar sep cs)

/-- Python split(sep, 1) for a single-character separator: the text before
the first occurrence and the text after it, or none when sep is absent. -/
def splitFirst (sep : Char) : PyStr → Option (PyStr × PyStr)
  | [] => none
  | c :: cs =>
      if c = sep then some ([], cs)
      else
        match splitFirst sep cs with
        | none => none
        | some (l, r) => some (c :: l, r)

/-- Whether the first list is a leading segment of the second. -/
def leadsWith : PyStr → PyStr → Bool
  | [], _ => true
  | _ :: _, [] => false
  | a :: as, b :: bs => a = b && leadsWith as bs

/-- Scanner for Python split(sep) with a multi-character separator.  The
fuel argument only bounds the scan; it is instantiated with the length of
the scanned string, which always suffices because every step consumes at
least one character of a non-empty separator match or one plain
character. -/
def splitSepAux (sep : PyStr) : Nat → PyStr → PyStr → List PyStr
  | _, [], acc => [acc.reverse]
  | 0, s, acc => [acc.reverse ++ s]
  | fuel + 1, c :: cs, acc =>
      if leadsWith sep (c :: cs) then
        acc.reverse :: splitSepAux sep fuel ((c :: cs).drop sep.length) []
      else
        splitSepAux sep fuel cs (c :: acc)

/-- Python split(sep) for a non-empty separator. -/
def pySplitSep (sep : PyStr) (s : PyStr) : List PyStr := splitSepAux sep s.length s []

/-- Python upper on the ASCII text the source handles. -/
def pyUpper (s : PyStr) : PyStr := s.map Char.toUpper

/-- The Python exception classes a tick of ETL.py can see, one constructor
per class: Exception from a non-200 fetch, ValueError from
load_json_to_dataframe, IndexError from the record parsers inside
transform_data, and the UnboundLocalError that escapes load_to_postgres. -/
inductive TickError where
  | fetchError : String → TickError
  | shapeError : String → TickError
  | parseError : String → TickError
  | runtimeError : String → TickError
deriving DecidableEq

/-- One innings entry of the score array; each field holds the rendered
text of the JSON number when the key is present, and none models an
absent key. -/
structure ScoreEntry where
  r : Option PyStr
  w : Option PyStr
  o : Option PyStr
deriving DecidableEq

/-- The score field of a raw record: a list of innings entries, or any
non-list value (absent key, null, NaN in the DataFrame). -/
inductive ScoreField where
  | list : List ScoreEntry → ScoreField
  | nonList : ScoreField
deriving DecidableEq

/-- One raw match record, with the six columns load_json_to_dataframe
selects. -/
structure RawMatch where
  id : PyStr
  name : PyStr
  matchType : PyStr
  status : PyStr
  venue : PyStr
  score : ScoreField
deriving DecidableEq

/-- One transformed row, in the fixed column order of transform_data. -/
structure Row where
  id : PyStr
  Team1 : PyStr
  Team2 : PyStr
  Match_Number : PyStr
  matchType : PyStr
  status : PyStr
  score_of_team1 : PyStr
  score_of_team2 : PyStr
  Venue : PyStr
  City : PyStr
  system_time : PyStr
deriving DecidableEq


/-- The rain sentinel string of ETL.py line 42. -/
def rainSentinel : PyStr := ("No result due to rain").data

/-- The filter of line 42: keep the records whose status differs from the
rain sentinel. -/
def cleanBatch (rs : List RawMatch) : List RawMatch :=
  rs.filter (fun r => r.status != rainSentinel)

/-- ETL.py split_teams (lines 44-53): split the name on commas; the piece
after the first comma, stripped, is the match info; the piece before it
splits on " vs " into the two teams, and Python raises IndexError when
that split has fewer than two pieces.  The match number is the first
whitespace token of the match info, or empty when the match info is
empty. -/
def split_teams (name : PyStr) : Except TickError (PyStr × PyStr × PyStr) :=
  let parts := splitChar ',' name
  let match_info := if 1 < parts.length then pyStrip (parts.getD 1 []) else []
  let teams := pySplitSep (" vs ").data (parts.getD 0 [])
  if 2 ≤ teams.length then
    .ok (pyStrip (teams.getD 0 []), pyStrip (teams.getD 1 []),
      if match_info ≠ [] then (pySplitWs match_info).getD 0 [] else [])
  else
    .error (.parseError "IndexError: list index out of range")

/-- ETL.py split_venue (lines 75-77): venue.split(",", 1), then strip both
pieces; Python raises IndexError at parts[1] when the venue has no
comma. -/
def split_venue (venue : PyStr) : Except TickError (PyStr × PyStr) :=
  match splitFirst ',' venue with
  | some (l, r) => .ok (pyStrip l, pyStrip r)
  | none => .error (.parseError "IndexError: list index out of range")

/-- The body of the loop of format_score (lines 62-66): render one innings
entry as runs/wickets(overs), substituting 0 for each absent key. -/
def formatEntry (e : ScoreEntry) : PyStr :=
  e.r.getD ("0").data ++ ("/").data ++ e.w.getD ("0").data ++
    ("(").data ++ e.o.getD ("0").data ++ (")").data

/-- The while loop of format_score (lines 68-69): append empty strings
until the list has at least two elements. -/
def padToTwo (xs : List PyStr) : List PyStr :=
  if h : xs.length < 2 then padToTwo (xs ++ [[]]) else xs
termination_by 2 - xs.length
decreasing_by simp only [List.length_append, List.length_cons, List.length_nil]; omega

/-- ETL.py format_score (lines 57-71): a non-list or empty score yields
two empty strings; otherwise every entry is rendered, the result is
padded to length two and the first two pieces are returned. -/
def format_score : ScoreField → PyStr × PyStr
  | .nonList => ([], [])
  | .list scoreList =>
      if scoreList.length = 0 then ([], [])
      else
        let formatted := padToTwo (scoreList.map formatEntry)
        (formatted.getD 0 [], formatted.getD 1 [])

/-- Apply a fallible per-record function to every record, stopping at the
first exception, like the column-wise apply of pandas does. -/
def mapExcept (f : α → Except TickError β) : List α → Except TickError (List β)
  | [] => .ok []
  | a :: l =>
      match f a with
      | .error e => .error e
      | .ok b =>
          match mapExcept f l with
          | .error e => .error e
          | .ok bs => .ok (b :: bs)

/-- Assemble the transformed rows from the per-record parse results, in
the fixed column order of lines 84-86; every row is stamped with the same
timestamp. -/
def buildRows (now : PyStr) :
    List RawMatch → List (PyStr × PyStr × PyStr) → List (PyStr × PyStr) →
      List (PyStr × PyStr) → List Row
  | r :: rs, (t1, t2, mnum) :: ts, (s1, s2) :: ss, (v, city) :: vs =>
      { id := r.id, Team1 := t1, Team2 := t2, Match_Number := mnum,
        matchType := pyUpper r.matchType, status := r.status,
        score_of_team1 := s1, score_of_team2 := s2, Venue := v, City := city,
        system_time := now } :: buildRows now rs ts ss vs
  | _, _, _, _ => []

/-- ETL.py transform_data after the filter (lines 55-86): the name column
is parsed first, then the score column is rendered, then the venue column
is parsed, and one timestamp is taken for the whole call. -/
def transformCleaned (now : PyStr) (cleaned : List RawMatch) :
    Except TickError (List Row) :=
  match mapExcept (fun r => split_teams r.name) cleaned with
  | .error e => .error e
  | .ok teams =>
      let scores := cleaned.map (fun r => format_score r.score)
      match mapExcept (fun r => split_venue r.venue) cleaned with
      | .error e => .error e
      | .ok venues => .ok (buildRows now cleaned teams scores venues)

/-- ETL.py transform_data (lines 40-88): filter out the rain-sentinel
records, then parse the remaining ones.  The argument now stands for the
single datetime.now() call of line 82. -/
def transform_data (now : PyStr) (rs : List RawMatch) :
    Except TickError (List Row) :=
  transformCleaned now (cleanBatch rs)

/-- Replace the score field of a record, leaving every other field as it
is. -/
def setScore (r : RawMatch) (sf : ScoreField) : RawMatch := { r with score := sf }

/-- Replace every score of a batch by a non-list value. -/
def dropScores (rs : List RawMatch) : List RawMatch :=
  rs.map (fun r => setScore r ScoreField.nonList)

/-- Whether an Except value is a success. -/
def exceptOk : Except TickError α → Bool
  | .ok _ => true
  | .error _ => false

/-- The well-formedness assumption of the claims about name parsing,
following the spec shape of a name, TeamA vs TeamB optionally followed by
a comma and a match description: the piece before the first comma splits
on " vs " into at least two pieces, and the segment after the first comma,
when one exists, has some non-whitespace content. -/
def wellFormedName (name : PyStr) : Prop :=
  2 ≤ (pySplitSep (" vs ").data ((splitChar ',' name).getD 0 [])).length ∧
  (1 < (splitChar ',' name).length → pyStrip ((splitChar ',' name).getD 1 []) ≠ [])

/-- The system_time column of a batch of rows. -/
def rowTimes (rows : List Row) : List PyStr :=
  rows.map (fun row => row.system_time)

/-- The id and status columns of a batch of transformed rows. -/
def rowKeyFields (rows : List Row) : List (PyStr × PyStr) :=
  rows.map (fun row => (row.id, row.status))

/-- The id and status columns of a batch of raw records. -/
def rawKeyFields (rs : List RawMatch) : List (PyStr × PyStr) :=
  rs.map (fun r => (r.id, r.status))

/-- Environment for the database interactions of load_to_postgres: for
each step, some message means that the step raises an exception carrying
that text; none means it succeeds. -/
structure DBEnv where
  connectExn : Option String
  ddlExn : Option String
  writeExn : Option String
  commitExn : Option String

/-- What load_to_postgres does at its Python boundary: either it returns
a value (none for success, or an error string) or an exception escapes
the function. -/
inductive LoadReturn where
  | ret : Option String → LoadReturn
  | exn : String → LoadReturn
deriving DecidableEq

/-- Outcome of one call of load_to_postgres: the boundary behaviour, plus
whether a connection was opened and whether it was closed again. -/
structure LoadResult where
  value : LoadReturn
  opened : Bool
  closed : Bool
deriving DecidableEq

/-- The message of the exception the except handler of load_to_postgres
itself raises when the local conn is still unbound. -/
def unboundConnMsg : String :=
  "UnboundLocalError: local variable conn referenced before assignment"

/-- The prefix of the error string load_to_postgres builds on line 188. -/
def loadErrorPrefix : String := "Error loading data to PostgreSQL: "

/-- ETL.py load_to_postgres (lines 138-188).  The local conn is first
assigned inside the try block; when psycopg2.connect itself raises, the
except handler evaluates the truth test on the still-unbound local conn
and an UnboundLocalError escapes the function.  When a later step (the
schema DDL of create_postgres_table, the batched upsert, or the commit)
raises, conn is bound, so the handler closes the connection and the error
string is returned.  On success the connection is closed and the function
returns None. -/
def load_to_postgres (db : DBEnv) (_df : List Row) : LoadResult :=
  match db.connectExn with
  | some _ => { value := .exn unboundConnMsg, opened := false, closed := false }
  | none =>
      match db.ddlExn with
      | some e =>
          { value := .ret (some (loadErrorPrefix ++ e)), opened := true, closed := true }
      | none =>
          match db.writeExn with
          | some e =>
              { value := .ret (some (loadErrorPrefix ++ e)), opened := true, closed := true }
          | none =>
              match db.commitExn with
              | some e =>
                  { value := .ret (some (loadErrorPrefix ++ e)), opened := true, closed := true }
              | none => { value := .ret none, opened := true, closed := true }

/-- The parsed JSON payload a tick fetches: none models a mapping without
the data key, some ms a mapping whose data key holds the records ms. -/
abbrev Payload := Option (List RawMatch)

/-- ETL.py load_json_to_dataframe (lines 21-38): when the data key is
present its records become the DataFrame, and otherwise a ValueError is
raised (the source message quotes the word data).  The ValueError is
modelled by the shapeError constructor, distinct from the parseError
constructor that models the IndexError of the per-record parsers. -/
def load_json_to_dataframe (payload : Payload) : Except TickError (List RawMatch) :=
  match payload with
  | some ms => .ok ms
  | none => .error (.shapeError "Expected key data not found in the JSON data.")

/-- What one tick of the loop of main reports. -/
inductive TickResult where
  | caught : TickError → TickResult
  | dbError : String → TickResult
  | success : TickResult
deriving DecidableEq

/-- The externally-determined circumstances of one tick: whether the
operator interrupts during it, what the fetch produces, the wall-clock
text of the tick, and the database environment. -/
structure TickInput where
  interrupted : Bool
  fetch : Except TickError Payload
  now : PyStr
  db : DBEnv

/-- One tick of main (lines 212-235): extract, transform, load, with
every exception of the three steps caught at the tick boundary and
reported as TickResult.caught.  The Bool records whether a store write
was attempted. -/
def runTick (inp : TickInput) : TickResult × Bool :=
  match inp.fetch with
  | .error e => (.caught e, false)
  | .ok payload =>
      match load_json_to_dataframe payload with
      | .error e => (.caught e, false)
      | .ok ms =>
          match transform_data inp.now ms with
          | .error e => (.caught e, false)
          | .ok rows =>
              match (load_to_postgres inp.db rows).value with
              | .exn e => (.caught (.runtimeError e), true)
              | .ret none => (.success, true)
              | .ret (some err) => (.dbError err, true)

/-- The fixed sleep of line 237, in seconds. -/
def tickSleepSeconds : Nat := 10

/-- State of the process: still looping or stopped by the operator; both
carry the reported tick results so far and the total seconds slept. -/
inductive LoopState where
  | running : List TickResult → Nat → LoopState
  | stopped : List TickResult → Nat → LoopState
deriving DecidableEq

/-- One iteration of the while loop of main: a KeyboardInterrupt leaves
the inner try uncaught and the outer handler stops the loop; otherwise
the tick runs, its result is printed, and the loop sleeps the fixed
interval. -/
def stepLoop (inp : TickInput) : LoopState → LoopState
  | .stopped rs t => .stopped rs t
  | .running rs t =>
      if inp.interrupted then .stopped rs t
      else .running (rs ++ [(runTick inp).1]) (t + tickSleepSeconds)

/-- The loop of main after a given number of iterations, driven by the
stream of tick circumstances. -/
def runLoop (inputs : Nat → TickInput) : Nat → LoopState
  | 0 => .running [] 0
  | n + 1 => stepLoop (inputs n) (runLoop inputs n)

/-- A parsable live record, used as a concrete input. -/
def liveRecord : RawMatch :=
  { id := ("1").data, name := ("A vs B, 3rd Match").data,
    matchType := ("t20").data, status := ("Live").data,
    venue := ("G, C").data, score := ScoreField.nonList }

/-- A rain-sentinel record whose name and venue would both fail to parse,
used to show filtered records are never parsed. -/
def rainRecord : RawMatch :=
  { id := ("2").data, name := ("no separator here").data,
    matchType := ("odi").data, status := rainSentinel,
    venue := ("no comma here").data, score := ScoreField.nonList }

/-- The timestamp text used by the concrete transform runs. -/
def tickNow : PyStr := ("2024-01-01 10:00:00").data

/-- The row the transform produces from liveRecord at tickNow. -/
def liveRowAt : Row :=
  { id := ("1").data, Team1 := ("A").data, Team2 := ("B").data,
    Match_Number := ("3rd").data, matchType := ("T20").data,
    status := ("Live").data, score_of_team1 := [], score_of_team2 := [],
    Venue := ("G").data, City := ("C").data, system_time := tickNow }

/-- A tick whose fetch fails with a non-200 response. -/
def fetchFailTick : TickInput :=
  { interrupted := false,
    fetch := .error (.fetchError "API request failed with status code 500"),
    now := [], db := ⟨none, none, none, none⟩ }

/-- A stream of ticks that all fail at the fetch. -/
def fetchFailStream : Nat → TickInput := fun _ => fetchFailTick

/-- A tick during which the operator interrupts. -/
def interruptTick : TickInput :=
  { interrupted := true, fetch := .ok none, now := [],
    db := ⟨none, none, none, none⟩ }

/-- A tick whose fetched payload lacks the data key. -/
def noDataTick : TickInput :=
  { interrupted := false, fetch := .ok none, now := [],
    db := ⟨none, none, none, none⟩ }

/-! Lemmas about the string model. -/

theorem dropWhileIdem (p : Char → Bool) (l : PyStr) :
    (l.dropWhile p).dropWhile p = l.dropWhile p := by
  induction l with
  | nil => rfl
  | cons c cs ih =>
      cases hp : p c
      · rw [List.dropWhile_cons, if_neg (by simp [hp]), List.dropWhile_cons,
          if_neg (by simp [hp])]
      · rw [List.dropWhile_cons, if_pos hp, ih]

theorem dropWhileHeadFalse {p : Char → Bool} {l : PyStr} {c : Char} {rest : PyStr}
    (h : l.dropWhile p = c :: rest) : p c = false := by
  induction l with
  | nil => simp [List.dropWhile] at h
  | cons a as ih =>
      rw [List.dropWhile_cons] at h
      by_cases hp : p a = true
      · rw [if_pos hp] at h; exact ih h
      · rw [if_neg hp] at h
        injection h with h1 h2
        subst h1
        simpa using hp

theorem pyRStripNilTakeWhile (t : PyStr) (h : pyRStrip t = []) :
    t.takeWhile (fun c => !c.isWhitespace) = [] := by
  induction t with
  | nil => rfl
  | cons c cs ih =>
      cases hcs : pyRStrip cs with
      | nil =>
          simp only [pyRStrip, hcs] at h
          cases hw : c.isWhitespace
          · rw [if_neg (by simp [hw])] at h
            exact absurd h (by simp)
          · rw [List.takeWhile_cons]
            simp [hw]
      | cons a as =>
          simp only [pyRStrip, hcs] at h
          exact absurd h (by simp)

theorem takeWhilePyRStrip (t : PyStr) :
    (pyRStrip t).takeWhile (fun c => !c.isWhitespace)
      = t.takeWhile (fun c => !c.isWhitespace) := by
  induction t with
  | nil => rfl
  | cons c cs ih =>
      cases hcs : pyRStrip cs with
      | nil =>
          cases hw : c.isWhitespace
          · simp [pyRStrip, hcs, hw, List.takeWhile_cons, pyRStripNilTakeWhile cs hcs]
          · simp [pyRStrip, hcs, hw, List.takeWhile_cons]
      | cons a as =>
          have h2 := ih
          rw [hcs] at h2
          cases hw : c.isWhitespace
          · simp [pyRStrip, hcs, hw, List.takeWhile_cons, h2]
          · simp [pyRStrip, hcs, hw, List.takeWhile_cons]

theorem dropWhilePyRStrip (t : PyStr) :
    (pyRStrip t).dropWhile Char.isWhitespace
      = pyRStrip (t.dropWhile Char.isWhitespace) := by
  induction t with
  | nil => rfl
  | cons c cs ih =>
      cases hcs : pyRStrip cs with
      | nil =>
          cases hw : c.isWhitespace
          · simp [pyRStrip, hcs, hw, List.dropWhile_cons]
          · simp [pyRStrip, hcs, hw, List.dropWhile_cons, ← ih]
      | cons a as =>
          have h2 := ih
          rw [hcs] at h2
          cases hw : c.isWhitespace
          · simp [pyRStrip, hcs, hw, List.dropWhile_cons]
          · simp [pyRStrip, hcs, hw, List.dropWhile_cons, h2.symm]

theorem firstWsTokenPyStrip (s : PyStr) : firstWsToken (pyStrip s) = firstWsToken s := by
  unfold firstWsToken pyStrip pyLStrip
  rw [dropWhilePyRStrip, dropWhileIdem, takeWhilePyRStrip]

theorem firstWsTokenNeNil (s : PyStr) (h : pyStrip s ≠ []) : firstWsToken s ≠ [] := by
  have h1 : pyLStrip s ≠ [] := by
    intro he
    apply h
    unfold pyStrip
    rw [he]
    rfl
  obtain ⟨c, rest, hc⟩ : ∃ c rest, pyLStrip s = c :: rest := by
    cases hh : pyLStrip s with
    | nil => exact absurd hh h1
    | cons c rest => exact ⟨c, rest, rfl⟩
  unfold pyLStrip at hc
  have hw : c.isWhitespace = false := dropWhileHeadFalse hc
  unfold firstWsToken
  rw [hc, List.takeWhile_cons]
  simp [hw]

theorem wordsAuxGetD (t : PyStr) : ∀ cur : PyStr, cur ≠ [] →
    (wordsAux t cur).getD 0 [] = cur.reverse ++ t.takeWhile (fun c => !c.isWhitespace) := by
  induction t with
  | nil => intro cur h; simp [wordsAux, h]
  | cons c cs ih =>
      intro cur h
      cases hw : c.isWhitespace
      · rw [wordsAux]
        simp only [hw, Bool.false_eq_true, if_false]
        rw [ih (c :: cur) (List.cons_ne_nil c cur)]
        simp [List.takeWhile_cons, hw, List.reverse_cons, List.append_assoc]
      · simp [wordsAux, hw, h, List.takeWhile_cons]

theorem pySplitWsGetD (s : PyStr) : (pySplitWs s).getD 0 [] = firstWsToken s := by
  induction s with
  | nil => rfl
  | cons c cs ih =>
      cases hw : c.isWhitespace
      · unfold pySplitWs
        rw [wordsAux]
        simp only [hw, Bool.false_eq_true, if_false]
        rw [wordsAuxGetD cs [c] (List.cons_ne_nil c [])]
        simp [firstWsToken, List.dropWhile_cons, List.takeWhile_cons, hw]
      · unfold pySplitWs
        rw [wordsAux]
        simp only [hw, if_true, reduceIte]
        unfold pySplitWs at ih
        rw [ih]
        simp [firstWsToken, List.dropWhile_cons, hw]

theorem consHeadNeNil (c : Char) (l : List PyStr) : consHead c l ≠ [] := by
  cases l <;> simp [consHead]

theorem splitCharNeNil (sep : Char) (s : PyStr) : splitChar sep s ≠ [] := by
  induction s with
  | nil => simp [splitChar]
  | cons c cs ih =>
      by_cases h : c = sep
      · simp [splitChar, h]
      · simp [splitChar, h, consHeadNeNil]

theorem consHeadLength (c : Char) (l : List PyStr) (h : l ≠ []) :
    (consHead c l).length = l.length := by
  cases l with
  | nil => exact absurd rfl h
  | cons x xs => simp [consHead]

theorem splitCharOneLtLength (sep : Char) (s : PyStr) :
    1 < (splitChar sep s).length ↔ sep ∈ s := by
  induction s with
  | nil => simp [splitChar]
  | cons c cs ih =>
      by_cases h : c = sep
      · have hpos : 0 < (splitChar sep cs).length :=
          List.length_pos.mpr (splitCharNeNil sep cs)
        rw [splitChar, if_pos h, List.length_cons]
        simp only [List.mem_cons]
        constructor
        · intro _; exact Or.inl h.symm
        · intro _; omega
      · rw [splitChar, if_neg h, consHeadLength c _ (splitCharNeNil sep cs), ih,
          List.mem_cons]
        constructor
        · intro hm; exact Or.inr hm
        · rintro (h1 | h2)
          · exact absurd h1.symm h
          · exact h2

theorem splitFirstNoneIff (sep : Char) (s : PyStr) :
    splitFirst sep s = none ↔ sep ∉ s := by
  induction s with
  | nil => simp [splitFirst]
  | cons c cs ih =>
      by_cases h : c = sep
      · subst h; simp [splitFirst]
      · rw [splitFirst, if_neg h]
        cases hh : splitFirst sep cs with
        | none =>
            have hni : sep ∉ cs := ih.mp hh
            simp only [List.mem_cons]
            constructor
            · rintro _ (h1 | h2)
              · exact h h1.symm
              · exact hni h2
            · intro _; trivial
        | some p =>
            obtain ⟨l, r⟩ := p
            have hin : sep ∈ cs := by
              by_contra hni
              rw [ih.mpr hni] at hh
              exact Option.noConfusion hh
            simp [List.mem_cons, hin]

theorem splitFirstAppend (sep : Char) (b : PyStr) : ∀ a : PyStr, sep ∉ a →
    splitFirst sep (a ++ sep :: b) = some (a, b) := by
  intro a
  induction a with
  | nil => intro _; simp [splitFirst]
  | cons x xs ih =>
      intro h
      have hx : ¬(x = sep) := fun he => h (by simp [he, List.mem_cons])
      have hxs : sep ∉ xs := fun hm => h (List.mem_cons.mpr (Or.inr hm))
      rw [List.cons_append, splitFirst, if_neg hx, ih hxs]

/-! Lemmas about the transform model. -/

theorem mapExceptOkLength (f : α → Except TickError β) (l : List α) :
    ∀ l2 : List β, mapExcept f l = .ok l2 → l2.length = l.length := by
  induction l with
  | nil =>
      intro l2 h
      simp only [mapExcept, Except.ok.injEq] at h
      subst h
      rfl
  | cons a l ih =>
      intro l2 h
      simp only [mapExcept] at h
      cases hfa : f a with
      | error e => rw [hfa] at h; exact absurd h (by simp)
      | ok b =>
          rw [hfa] at h
          cases hml : mapExcept f l with
          | error e => rw [hml] at h; exact absurd h (by simp)
          | ok bs =>
              rw [hml] at h
              simp only [Except.ok.injEq] at h
              subst h
              simp [ih bs hml]

theorem buildRowsTimes (now : PyStr) (cl : List RawMatch) :
    ∀ (ts : List (PyStr × PyStr × PyStr)) (ss vs : List (PyStr × PyStr)),
    rowTimes (buildRows now cl ts ss vs)
      = List.replicate (buildRows now cl ts ss vs).length now := by
  induction cl with
  | nil => intro ts ss vs; rfl
  | cons r cl ih =>
      intro ts ss vs
      cases ts with
      | nil => rfl
      | cons t ts =>
          obtain ⟨t1, t2, mn⟩ := t
          cases ss with
          | nil => rfl
          | cons s ss =>
              obtain ⟨s1, s2⟩ := s
              cases vs with
              | nil => rfl
              | cons v vs =>
                  obtain ⟨vv, city⟩ := v
                  simp only [buildRows, rowTimes, List.map_cons, List.length_cons,
                    List.replicate_succ]
                  have := ih ts ss vs
                  simp only [rowTimes] at this
                  rw [this]

theorem buildRowsKeys (now : PyStr) (cl : List RawMatch) :
    ∀ (ts : List (PyStr × PyStr × PyStr)) (ss vs : List (PyStr × PyStr)),
    ts.length = cl.length → ss.length = cl.length → vs.length = cl.length →
    rowKeyFields (buildRows now cl ts ss vs) = rawKeyFields cl := by
  induction cl with
  | nil => intro ts ss vs _ _ _; rfl
  | cons r cl ih =>
      intro ts ss vs h1 h2 h3
      cases ts with
      | nil => simp at h1
      | cons t ts =>
          obtain ⟨t1, t2, mn⟩ := t
          cases ss with
          | nil => simp at h2
          | cons s ss =>
              obtain ⟨s1, s2⟩ := s
              cases vs with
              | nil => simp at h3
              | cons v vs =>
                  obtain ⟨vv, city⟩ := v
                  simp only [List.length_cons] at h1 h2 h3
                  simp only [buildRows, rowKeyFields, rawKeyFields, List.map_cons]
                  have := ih ts ss vs (by omega) (by omega) (by omega)
                  simp only [rowKeyFields, rawKeyFields] at this
                  rw [this]

theorem transformCleanedEqOk (now : PyStr) (cl : List RawMatch) (rows : List Row)
    (h : transformCleaned now cl = .ok rows) :
    ∃ teams venues,
      mapExcept (fun r => split_teams r.name) cl = .ok teams ∧
      mapExcept (fun r => split_venue r.venue) cl = .ok venues ∧
      rows = buildRows now cl teams (cl.map (fun r => format_score r.score)) venues := by
  simp only [transformCleaned] at h
  cases ht : mapExcept (fun r => split_teams r.name) cl with
  | error e => rw [ht] at h; exact absurd h (by simp)
  | ok teams =>
      rw [ht] at h
      cases hv : mapExcept (fun r => split_venue r.venue) cl with
      | error e => rw [hv] at h; exact absurd h (by simp)
      | ok venues =>
          rw [hv] at h
          simp only [Except.ok.injEq] at h
          exact ⟨teams, venues, rfl, rfl, h.symm⟩

theorem memCleanBatch (rs : List RawMatch) (a : RawMatch) :
    a ∈ cleanBatch rs ↔ a ∈ rs ∧ a.status ≠ rainSentinel := by
  simp [cleanBatch, List.mem_filter, bne_iff_ne]

theorem cleanBatchAppend (xs ys : List RawMatch) :
    cleanBatch (xs ++ ys) = cleanBatch xs ++ cleanBatch ys :=
  List.filter_append xs ys

theorem cleanBatchConsRain (r : RawMatch) (ys : List RawMatch)
    (h : r.status = rainSentinel) : cleanBatch (r :: ys) = cleanBatch ys := by
  simp [cleanBatch, List.filter_cons, h]

theorem cleanBatchDropScores (rs : List RawMatch) :
    cleanBatch (dropScores rs) = dropScores (cleanBatch rs) := by
  unfold cleanBatch dropScores
  rw [List.filter_map]
  rfl

theorem mapExceptNameDropScores (l : List RawMatch) :
    mapExcept (fun r => split_teams r.name) (dropScores l)
      = mapExcept (fun r => split_teams r.name) l := by
  induction l with
  | nil => rfl
  | cons a l ih =>
      simp only [dropScores, List.map_cons, mapExcept]
      have hname : split_teams (setScore a ScoreField.nonList).name
          = split_teams a.name := rfl
      rw [hname]
      have ih2 : mapExcept (fun r => split_teams r.name)
          (List.map (fun r => setScore r ScoreField.nonList) l)
          = mapExcept (fun r => split_teams r.name) l := by
        simpa [dropScores] using ih
      rw [ih2]

theorem mapExceptVenueDropScores (l : List RawMatch) :
    mapExcept (fun r => split_venue r.venue) (dropScores l)
      = mapExcept (fun r => split_venue r.venue) l := by
  induction l with
  | nil => rfl
  | cons a l ih =>
      simp only [dropScores, List.map_cons, mapExcept]
      have hv : split_venue (setScore a ScoreField.nonList).venue
          = split_venue a.venue := rfl
      rw [hv]
      have ih2 : mapExcept (fun r => split_venue r.venue)
          (List.map (fun r => setScore r ScoreField.nonList) l)
          = mapExcept (fun r => split_venue r.venue) l := by
        simpa [dropScores] using ih
      rw [ih2]

theorem transformCleanedOkDropScores (now : PyStr) (cl : List RawMatch) :
    exceptOk (transformCleaned now (dropScores cl))
      = exceptOk (transformCleaned now cl) := by
  unfold transformCleaned
  rw [mapExceptNameDropScores, mapExceptVenueDropScores]
  cases hT : mapExcept (fun r => split_teams r.name) cl with
  | error e => simp [exceptOk]
  | ok teams =>
      cases hV : mapExcept (fun r => split_venue r.venue) cl with
      | error e => simp [hV, exceptOk]
      | ok venues => simp [hV, exceptOk]

theorem padToTwoOfTwoLe (xs : List PyStr) (h : 2 ≤ xs.length) : padToTwo xs = xs := by
  rw [padToTwo]
  rw [dif_neg (by omega)]

theorem padToTwoOne (x : PyStr) : padToTwo [x] = [x, []] := by
  rw [padToTwo]
  rw [dif_pos (by simp)]
  exact padToTwoOfTwoLe _ (by simp)

/-! The claims. -/

/-- C1: the claim that load_to_postgres never raises past its boundary
fails on the code at a connect failure: the except handler evaluates the
truth test on the still-unbound local conn, so an UnboundLocalError
escapes the function instead of an error string being returned, which
also contradicts the docstring of the function.  On failures after a
successful connect (schema DDL, batched write, commit) the function does
return the error string with the connection closed first, and on success
it closes the connection and returns None. -/
theorem load_to_postgres_connect_failure_raises :
    (load_to_postgres ⟨some "connection refused", none, none, none⟩ []).value
        = LoadReturn.exn unboundConnMsg ∧
    (load_to_postgres ⟨some "connection refused", none, none, none⟩ []).opened
        = false ∧
    (load_to_postgres ⟨none, some "ddl failed", none, none⟩ []).value
        = LoadReturn.ret (some (loadErrorPrefix ++ "ddl failed")) ∧
    (load_to_postgres ⟨none, some "ddl failed", none, none⟩ []).closed = true ∧
    (load_to_postgres ⟨none, none, some "write failed", none⟩ []).value
        = LoadReturn.ret (some (loadErrorPrefix ++ "write failed")) ∧
    (load_to_postgres ⟨none, none, some "write failed", none⟩ []).closed = true ∧
    (load_to_postgres ⟨none, none, none, none⟩ []).value = LoadReturn.ret none ∧
    (load_to_postgres ⟨none, none, none, none⟩ []).closed = true :=
  ⟨rfl, rfl, rfl, rfl, rfl, rfl, rfl, rfl⟩

/-- C3: for every score list, each innings entry is rendered as
runs/wickets(overs) with 0 substituted for a missing sub-field; a list of
length zero yields two empty strings, a singleton yields the formatted
entry and an empty string, and a list of length two or more yields exactly
the first two formatted entries, dropping the rest. -/
theorem format_score_innings_cases (l : List ScoreEntry) :
    format_score (ScoreField.list []) = ([], []) ∧
    (∀ e : ScoreEntry, format_score (ScoreField.list [e]) = (formatEntry e, [])) ∧
    (2 ≤ l.length →
      format_score (ScoreField.list l)
        = (formatEntry (l.getD 0 ⟨none, none, none⟩),
           formatEntry (l.getD 1 ⟨none, none, none⟩))) ∧
    formatEntry ⟨none, none, none⟩ = ("0/0(0)").data := by
  refine ⟨rfl, ?_, ?_, rfl⟩
  · intro e
    simp [format_score, padToTwoOne]
  · intro h
    cases l with
    | nil => simp at h
    | cons a l1 =>
        cases l1 with
        | nil => simp at h
        | cons b rest =>
            have hpad : padToTwo (formatEntry a :: formatEntry b :: List.map formatEntry rest)
                = formatEntry a :: formatEntry b :: List.map formatEntry rest :=
              padToTwoOfTwoLe _ (by simp)
            simp [format_score, hpad, List.getD_cons_zero, List.getD_cons_succ]

/-- Witness for C3 at a concrete three-innings list: the third entry is
dropped and the defaults fill the missing sub-fields of the first two. -/
theorem format_score_innings_cases_witness :
    format_score (ScoreField.list
        [⟨some ("120").data, some ("3").data, some ("15.2").data⟩,
         ⟨some ("280").data, none, some ("49.3").data⟩,
         ⟨some ("1").data, none, none⟩])
      = (("120/3(15.2)").data, ("280/0(49.3)").data) :=
  (format_score_innings_cases
      [⟨some ("120").data, some ("3").data, some ("15.2").data⟩,
       ⟨some ("280").data, none, some ("49.3").data⟩,
       ⟨some ("1").data, none, none⟩]).2.2.1 (by decide)

/-- C5: split_venue splits the venue on its first comma, yielding the
trimmed left piece and the trimmed remainder, and it fails (the
IndexError of indexing parts[1]) exactly when the venue holds no
comma. -/
theorem split_venue_comma_spec (venue : PyStr) :
    (∀ a b : PyStr, (',' : Char) ∉ a →
      split_venue (a ++ ',' :: b) = .ok (pyStrip a, pyStrip b)) ∧
    (exceptOk (split_venue venue) = false ↔ (',' : Char) ∉ venue) := by
  constructor
  · intro a b ha
    unfold split_venue
    rw [splitFirstAppend ',' b a ha]
  · unfold split_venue
    cases hh : splitFirst ',' venue with
    | none =>
        simp only [exceptOk]
        exact ⟨fun _ => (splitFirstNoneIff ',' venue).mp hh, fun _ => trivial⟩
    | some p =>
        obtain ⟨l, r⟩ := p
        simp only [exceptOk]
        constructor
        · intro hfalse; exact absurd hfalse (by simp)
        · intro hni
          rw [(splitFirstNoneIff ',' venue).mpr hni] at hh
          exact Option.noConfusion hh

/-- Witness for C5: the spec example venue splits into ground and city,
and a comma-free venue makes split_venue fail. -/
theorem split_venue_comma_spec_witness :
    split_venue (("MCG, Melbourne").data) = .ok (("MCG").data, ("Melbourne").data) ∧
    exceptOk (split_venue (("Eden Gardens").data)) = false :=
  ⟨(split_venue_comma_spec []).1 (("MCG").data) ((" Melbourne").data) (by decide),
   ((split_venue_comma_spec (("Eden Gardens").data)).2).mpr (by decide)⟩

/-- C10: a non-list score field (absent or null in the payload) formats to
two empty strings without raising, and replacing every score of a batch by
a non-list value never changes whether the transform succeeds, so a
missing score never aborts the tick. -/
theorem format_score_non_list_safe :
    format_score ScoreField.nonList = ([], []) ∧
    ∀ (now : PyStr) (rs : List RawMatch),
      exceptOk (transform_data now (dropScores rs))
        = exceptOk (transform_data now rs) := by
  refine ⟨rfl, ?_⟩
  intro now rs
  unfold transform_data
  rw [cleanBatchDropScores]
  exact transformCleanedOkDropScores now (cleanBatch rs)

/-- C2: the transform excludes a record exactly when its status equals
the rain sentinel string (any other status, the empty string included,
passes the filter), and the filter precedes all per-record parsing: a
sentinel record is never parsed and never emitted, since removing it from
the batch leaves the whole transform result unchanged whatever its other
fields hold, unparsable name and venue included. -/
theorem transform_filters_rain_sentinel (now : PyStr) (rs xs ys : List RawMatch)
    (r a : RawMatch) :
    (a ∈ cleanBatch rs ↔ a ∈ rs ∧ a.status ≠ rainSentinel) ∧
    (r.status = rainSentinel →
      transform_data now (xs ++ r :: ys) = transform_data now (xs ++ ys)) := by
  constructor
  · exact memCleanBatch rs a
  · intro h
    unfold transform_data
    rw [cleanBatchAppend, cleanBatchConsRain r ys h, ← cleanBatchAppend]

/-- Witness for C2: the live record passes the filter and dropping the
rain record (whose name and venue could not be parsed) leaves the
transform unchanged. -/
theorem transform_filters_rain_sentinel_witness :
    (liveRecord ∈ cleanBatch [liveRecord, rainRecord] ↔
      liveRecord ∈ [liveRecord, rainRecord] ∧ liveRecord.status ≠ rainSentinel) ∧
    transform_data tickNow ([liveRecord] ++ rainRecord :: [])
      = transform_data tickNow ([liveRecord] ++ []) :=
  ⟨(transform_filters_rain_sentinel tickNow [liveRecord, rainRecord]
      [liveRecord] [] rainRecord liveRecord).1,
   (transform_filters_rain_sentinel tickNow [liveRecord, rainRecord]
      [liveRecord] [] rainRecord liveRecord).2 rfl⟩

/-- C8: every row of a successful transform carries the identical
system_time string, namely the single timestamp taken once for the whole
transform call, not once per record. -/
theorem transform_single_timestamp (now : PyStr) (rs : List RawMatch)
    (rows : List Row) (h : transform_data now rs = .ok rows) :
    rowTimes rows = List.replicate rows.length now := by
  have h2 : transformCleaned now (cleanBatch rs) = .ok rows := h
  obtain ⟨teams, venues, ht, hv, hrows⟩ :=
    transformCleanedEqOk now (cleanBatch rs) rows h2
  subst hrows
  exact buildRowsTimes now (cleanBatch rs) teams _ venues

/-- Witness for C8: the one-record batch transforms to one row stamped
with the timestamp of the call. -/
theorem transform_single_timestamp_witness :
    rowTimes [liveRowAt] = List.replicate 1 tickNow :=
  transform_single_timestamp tickNow [liveRecord] [liveRowAt] rfl

/-- C9: a successful transform leaves the id and status of every
surviving record unchanged, row by row in order; only the derived columns
are computed. -/
theorem transform_preserves_id_status (now : PyStr) (rs : List RawMatch)
    (rows : List Row) (h : transform_data now rs = .ok rows) :
    rowKeyFields rows = rawKeyFields (cleanBatch rs) := by
  have h2 : transformCleaned now (cleanBatch rs) = .ok rows := h
  obtain ⟨teams, venues, ht, hv, hrows⟩ :=
    transformCleanedEqOk now (cleanBatch rs) rows h2
  subst hrows
  exact buildRowsKeys now (cleanBatch rs) teams _ venues
    (mapExceptOkLength _ _ teams ht) (by simp) (mapExceptOkLength _ _ venues hv)

/-- Witness for C9: the transformed row of the one-record batch keeps id
1 and status Live verbatim. -/
theorem transform_preserves_id_status_witness :
    rowKeyFields [liveRowAt] = rawKeyFields (cleanBatch [liveRecord]) :=
  transform_preserves_id_status tickNow [liveRecord] [liveRowAt] rfl

/-- C4: for every well-formed name the parsed match number is the first
whitespace-delimited token of the comma segment after the first comma
when the name holds a comma, and the match number is empty exactly when
the name holds no comma. -/
theorem split_teams_match_number_spec (name t1 t2 mn : PyStr)
    (hwf : wellFormedName name)
    (hok : split_teams name = .ok (t1, t2, mn)) :
    ((',' : Char) ∈ name → mn = firstWsToken ((splitChar ',' name).getD 1 [])) ∧
    (mn = [] ↔ (',' : Char) ∉ name) := by
  obtain ⟨hvs, hseg⟩ := hwf
  simp only [split_teams] at hok
  rw [if_pos hvs] at hok
  simp only [Except.ok.injEq, Prod.mk.injEq] at hok
  obtain ⟨h1, h2, h3⟩ := hok
  by_cases hc : (',' : Char) ∈ name
  · have hlen : 1 < (splitChar ',' name).length :=
      (splitCharOneLtLength ',' name).mpr hc
    have hne : pyStrip ((splitChar ',' name).getD 1 []) ≠ [] := hseg hlen
    rw [if_pos hlen] at h3
    rw [if_pos hne] at h3
    have hmn : mn = firstWsToken ((splitChar ',' name).getD 1 []) := by
      rw [← h3, pySplitWsGetD, firstWsTokenPyStrip]
    refine ⟨fun _ => hmn, ?_, fun hnc => absurd hc hnc⟩
    intro hmnnil
    have hfw : firstWsToken ((splitChar ',' name).getD 1 []) = [] :=
      hmn.symm.trans hmnnil
    exact absurd hfw (firstWsTokenNeNil _ hne)
  · have hlen : ¬ 1 < (splitChar ',' name).length :=
      fun hl => hc ((splitCharOneLtLength ',' name).mp hl)
    rw [if_neg hlen] at h3
    simp only [ne_eq, not_true_eq_false, if_false, reduceIte] at h3
    refine ⟨fun hcc => absurd hcc hc, ?_, fun _ => h3.symm⟩
    intro _
    exact hc

/-- Witness for C4 at the spec example name: the match number is 3rd, the
first whitespace token of the segment after the comma, and it is not
empty because the name holds a comma. -/
theorem split_teams_match_number_spec_witness :
    ("3rd").data
      = firstWsToken ((splitChar ','
          (("India vs Australia, 3rd Match").data)).getD 1 []) ∧
    ((("3rd").data = ([] : PyStr)) ↔
      (',' : Char) ∉ (("India vs Australia, 3rd Match").data)) := by
  have h := split_teams_match_number_spec
      (("India vs Australia, 3rd Match").data)
      (("India").data) (("Australia").data) (("3rd").data)
      (by exact ⟨by decide, fun _ => by decide⟩) rfl
  exact ⟨h.1 (by decide), h.2⟩

/-- C6: a fetched payload without the data key makes the tick catch a
shape failure (the ValueError of load_json_to_dataframe), which is a
different error class from the per-record parse failures; no store write
is attempted that tick, and the loop steps on to the next tick after
reporting. -/
theorem missing_data_key_shape_error (inp : TickInput)
    (hf : inp.fetch = .ok none) :
    runTick inp
      = (TickResult.caught (TickError.shapeError
          "Expected key data not found in the JSON data."), false) ∧
    (∀ s : String, TickError.shapeError
        "Expected key data not found in the JSON data."
      ≠ TickError.parseError s) ∧
    (∀ (rs : List TickResult) (t : Nat), inp.interrupted = false →
      stepLoop inp (LoopState.running rs t)
        = LoopState.running (rs ++ [TickResult.caught (TickError.shapeError
            "Expected key data not found in the JSON data.")])
            (t + tickSleepSeconds)) := by
  have h1 : runTick inp
      = (TickResult.caught (TickError.shapeError
          "Expected key data not found in the JSON data."), false) := by
    unfold runTick
    rw [hf]
    rfl
  refine ⟨h1, ?_, ?_⟩
  · intro s h
    exact TickError.noConfusion h
  · intro rs t hi
    simp [stepLoop, hi, h1]

/-- Witness for C6: the concrete no-data tick is caught as a shape error
with no write, and the loop keeps running after it. -/
theorem missing_data_key_shape_error_witness :
    runTick noDataTick
      = (TickResult.caught (TickError.shapeError
          "Expected key data not found in the JSON data."), false) ∧
    stepLoop noDataTick (LoopState.running [] 0)
      = LoopState.running [TickResult.caught (TickError.shapeError
          "Expected key data not found in the JSON data.")] tickSleepSeconds := by
  have h := missing_data_key_shape_error noDataTick rfl
  refine ⟨h.1, ?_⟩
  have h3 := h.2.2 [] 0 rfl
  simpa using h3

/-- C7: with no operator interrupt the loop is still running after any
number of ticks, having reported one result per tick and slept the fixed
ten-second interval once per tick, whatever errors the ticks hit; only an
operator interrupt stops it. -/
theorem tick_errors_never_stop_loop (inputs : Nat → TickInput)
    (hni : ∀ k, (inputs k).interrupted = false) (n : Nat)
    (inp : TickInput) (rs : List TickResult) (t : Nat) :
    runLoop inputs n
      = LoopState.running ((List.range n).map (fun k => (runTick (inputs k)).1))
          (tickSleepSeconds * n) ∧
    (inp.interrupted = true →
      stepLoop inp (LoopState.running rs t) = LoopState.stopped rs t) := by
  constructor
  · induction n with
    | zero => simp [runLoop]
    | succ m ih =>
        rw [runLoop, ih]
        simp [stepLoop, hni m, List.range_succ, Nat.mul_succ]
  · intro hi
    simp [stepLoop, hi]

/-- Witness for C7: two consecutive fetch failures leave the loop
running with two reported results and twenty slept seconds, while an
interrupted tick stops it. -/
theorem tick_errors_never_stop_loop_witness :
    runLoop fetchFailStream 2
      = LoopState.running
          [TickResult.caught
            (TickError.fetchError "API request failed with status code 500"),
           TickResult.caught
            (TickError.fetchError "API request failed with status code 500")]
          20 ∧
    stepLoop interruptTick (LoopState.running [] 0) = LoopState.stopped [] 0 := by
  have h := tick_errors_never_stop_loop fetchFailStream (fun _ => rfl) 2
    interruptTick [] 0
  exact ⟨h.1.trans rfl, h.2 rfl⟩
